/-
  Verification of the creative-generation orchestration pipeline of the
  Meta-Creative-Builder repository (src/services/geminiService.ts, plus the
  form submission handler).

  Modelling conventions (shallow embedding):
  * Calls to the external generative-AI service are modelled by an explicit
    environment (`Env`) supplying, per call site, the outcome of that call:
    `Except Err r` where `.error` models a rejected promise and `.ok` a
    fulfilled response.  Prompt strings flow only into the external call, so
    they are reproduced where a claim depends on the request content
    (text-to-image requests) and absorbed into the oracle elsewhere.
  * `async`/`await` sequencing becomes the `Except Err` monad; an uncaught
    exception is `.error`.
  * `JSON.parse` of a response text is an external function; its outcome is
    supplied together with the call outcome (`Except Unit _` inner layer:
    `.error ()` models a thrown SyntaxError).  Where the parsed value is used
    untyped (TypeScript casts), the payload type is left polymorphic.
  * The video polling loop is a `while` loop with no bound; it is modelled
    with explicit fuel, `none` meaning the loop is still running after
    `fuel` iterations.
-/
import Mathlib

set_option linter.unusedVariables false

deriving instance DecidableEq for Except

namespace MetaCreativeBuilder

/-- A JavaScript `Error` carrying its message (src/services/geminiService.ts
throws `new Error(...)` with a message string). -/
structure Err where
  message : String
deriving DecidableEq, Repr

/-- `CreativeFormat` enum from src/types.ts (values "1080x1080 (Square)" etc.;
only the case identity matters to the pipeline). -/
inductive CreativeFormat where
  | SQUARE
  | HORIZONTAL
  | VERTICAL
deriving DecidableEq, Repr, Inhabited

/-- `CreativeType` enum from src/types.ts. -/
inductive CreativeType where
  | IMAGE
  | VIDEO
deriving DecidableEq, Repr, Inhabited

/-- `FontStyle` enum from src/types.ts. -/
inductive FontStyle where
  | MODERN
  | BOLD
  | HANDWRITTEN
  | ELEGANT
  | PLAYFUL
deriving DecidableEq, Repr, Inhabited

/-- The `productImage` payload from src/types.ts: `{ mimeType: string; data:
string }` (base64 encoded). -/
structure ProductImage where
  mimeType : String
  data : String
deriving DecidableEq, Repr, Inhabited

/-- `UserInputs` from src/types.ts.  Optional fields become `Option`. -/
structure UserInputs where
  productDescription : String
  productImage : Option ProductImage := none
  productUrl : Option String := none
  creativeFormat : CreativeFormat
  creativeType : CreativeType
  hookText : Option String := none
  fontStyle : Option FontStyle := none
deriving DecidableEq, Repr, Inhabited

/-- `AdCopy` from src/types.ts. -/
structure AdCopy where
  headline : String
  primaryText : String
  cta : String
deriving DecidableEq, Repr, Inhabited

/-- `AdCreative` from src/types.ts. -/
structure AdCreative where
  id : String
  url : String
  type : CreativeType
  copy : AdCopy
  variation : String
deriving DecidableEq, Repr, Inhabited

/-- JavaScript truthiness of an optional string field: `undefined` and the
empty string are falsy. -/
def optStrTruthy : Option String → Bool
  | none => false
  | some s => s != ""

/-- The double-quote character, written via its code point so that string
literals in this development need not embed a raw quote. -/
def quoteChar : Char := Char.ofNat 34

/-- JavaScript `String.prototype.trim()`: remove leading and trailing
whitespace.  Implemented on the character list by structural recursion (the
class of whitespace characters is `Char.isWhitespace`; the full Unicode
white-space class of JavaScript is not load-bearing for any claim). -/
def jsTrim (s : String) : String :=
  String.mk
    (((s.data.dropWhile Char.isWhitespace).reverse.dropWhile
      Char.isWhitespace).reverse)

/-- Core of the `.replace(/^"|"$/g, '')` step of `proofreadText`
(src/services/geminiService.ts line 227) on the character list of the string:
remove one leading double quote if present, then one trailing double quote if
present.  The two regex alternatives `^"` and `"$` act independently, which
this sequential form reproduces (including the overlap case of the one-
character string consisting of a single quote). -/
def stripQuotesCore (l : List Char) : List Char :=
  let l1 := match l with
    | c :: rest => if c = quoteChar then rest else l
    | [] => l
  if l1.getLast? = some quoteChar then l1.dropLast else l1

/-- String-level wrapper for `stripQuotesCore`. -/
def stripWrapQuotes (s : String) : String :=
  String.mk (stripQuotesCore s.data)

/-- `proofreadText` (src/services/geminiService.ts lines 209-232).
`svc` is the outcome of the one `ai.models.generateContent` call the function
makes (`.ok t` = fulfilled with `response.text = t`); `context` only enters
the prompt sent to the service, so it does not influence the modelled
behaviour.  The `try`/`catch` returns the original text on any failure. -/
def proofreadText (svc : Except Err String) (textToProofread : String)
    (context : String) : Except Err String :=
  if textToProofread = "" ∨ jsTrim textToProofread = "" then
    .ok textToProofread
  else
    match svc with
    | .ok t => .ok (stripWrapQuotes (jsTrim t))
    | .error _ => .ok textToProofread

/-- Whether `proofreadText` reaches its service call for a given input: the
guard `if (!textToProofread || !textToProofread.trim()) return textToProofread`
(line 210) skips the call exactly on empty or whitespace-only input. -/
def proofreadTextCallsService (textToProofread : String) : Bool :=
  !(textToProofread = "" || jsTrim textToProofread = "")

/-- `proofreadAdCopy` (src/services/geminiService.ts lines 234-272).
`svc` combines the `generateContent` call outcome with the `JSON.parse`
outcome of its `response.text`: `.error e` = the call rejected, `.ok none` =
the call fulfilled but `JSON.parse` threw, `.ok (some l)` = the text parsed
to the ad-copy list `l` (the well-shaped fragment; the TypeScript cast
performs no shape validation).  The `try`/`catch` returns the original list
on any failure. -/
def proofreadAdCopy (svc : Except Err (Option (List AdCopy)))
    (adCopies : List AdCopy) (context : String) : Except Err (List AdCopy) :=
  if adCopies.length = 0 then
    .ok adCopies
  else
    match svc with
    | .ok (some parsed) => .ok parsed
    | .ok none => .ok adCopies
    | .error _ => .ok adCopies

/-- A JSON value, for the unvalidated `JSON.parse` result in
`generateAdCopy`.  Numbers are modelled as integers (no claim depends on
numeric payloads). -/
inductive Json where
  | null
  | bool (b : Bool)
  | num (n : Int)
  | str (s : String)
  | arr (elems : List Json)
  | obj (fields : List (String × Json))

/-- `generateAdCopy` (src/services/geminiService.ts lines 20-55).
`svc` is the outcome of the `generateContent` call together with the
`JSON.parse` outcome of `response.text` (`.ok (.error ())` = the text is not
syntactically valid JSON, so `JSON.parse` threw).  The parsed value is
returned as-is — the TypeScript `return JSON.parse(response.text)` casts it
to `AdCopy[]` without validating its shape — hence the polymorphic payload:
instantiated at `Json` for shape questions and at `List AdCopy` for the
well-shaped pipeline fragment.  `productInfo` only enters the prompt. -/
def generateAdCopy (svc : Except Err (Except Unit α))
    (productInfo : String) : Except Err α :=
  match svc with
  | .error e => .error e
  | .ok (.error _) => .error ⟨"Failed to generate valid ad copy."⟩
  | .ok (.ok parsed) => .ok parsed

/-- Decoder for the response schema declared in `generateAdCopy`
(src/services/geminiService.ts lines 34-45): a JSON array of objects with
required string fields `headline`, `primaryText`, `cta`.  The code never
applies this check; it exists to state what "the expected array-of-objects
shape" is. -/
def decodeAdCopy (j : Json) : Option AdCopy :=
  match j with
  | .obj fields =>
    match fields.lookup "headline", fields.lookup "primaryText",
        fields.lookup "cta" with
    | some (.str h), some (.str p), some (.str c) => some ⟨h, p, c⟩
    | _, _, _ => none
  | _ => none

/-- Decoder for the full expected response shape of `generateAdCopy`. -/
def decodeAdCopyList (j : Json) : Option (List AdCopy) :=
  match j with
  | .arr elems => elems.mapM decodeAdCopy
  | _ => none

/-- `getAspectRatio` (src/services/geminiService.ts lines 57-64).  The
TypeScript `default` branch returning `'1:1'` is unreachable: the enum has
exactly the three cases matched here. -/
def getAspectRatio (format : CreativeFormat) : String :=
  match format with
  | .SQUARE => "1:1"
  | .HORIZONTAL => "16:9"
  | .VERTICAL => "9:16"

/-- A double-quote character as a one-character string. -/
def quoteS : String := String.mk [quoteChar]

/-- `s` wrapped in double quotes, as produced by the template literals
`"${s}"` in the prompt strings. -/
def quoted (s : String) : String := quoteS ++ s ++ quoteS

/-- `VARIATION_PROMPTS` (src/services/geminiService.ts lines 66-70). -/
def VARIATION_PROMPTS : List String :=
  [ "Focus on a clean, minimalist aesthetic with a bright, uncluttered background. The product should be the hero.",
    "Show the product in a vibrant, energetic lifestyle scene. Include a human element (e.g., hands using the product).",
    "Create a dynamic, eye-catching composition with bold colors and strong visual hierarchy. Emphasize a key feature." ]

/-- String interpolation of `inputs.fontStyle` in the prompt templates: the
enum's string value, or the JavaScript rendering of `undefined` when the
field is absent. -/
def fontStyleStr : Option FontStyle → String
  | some .MODERN => "Modern"
  | some .BOLD => "Bold"
  | some .HANDWRITTEN => "Handwritten"
  | some .ELEGANT => "Elegant"
  | some .PLAYFUL => "Playful"
  | none => "undefined"

/-- One `ai.models.generateImages` request of the text-to-image branch
(src/services/geminiService.ts lines 132-142): the prompt plus the `config`
object.  The model selector (a constant imported from src/constants.ts,
which is outside the sources) is omitted; it is the same for all three
requests and no claim depends on it. -/
structure GenImagesRequest where
  prompt : String
  numberOfImages : Nat
  outputMimeType : String
  aspectRatio : String
deriving DecidableEq, Repr

/-- One generated image of a `generateImages` response (`image.imageBytes`,
line 150). -/
structure GeneratedImage where
  imageBytes : String
deriving DecidableEq, Repr, Inhabited

/-- A fulfilled `ai.models.generateImages` response: its `generatedImages`
list (a `null`/absent field is modelled as the empty list; the code treats
the two identically at line 146). -/
structure GenImagesResponse where
  generatedImages : List GeneratedImage
deriving DecidableEq, Repr, Inhabited

/-- The text-to-image prompt template (src/services/geminiService.ts lines
123-130), with the template's per-line indentation normalised to single
newlines.  The prompt flows only into the external call. -/
def t2iPrompt (inputs : UserInputs) (productInfo : String)
    (variation : String) : String :=
  String.intercalate "\n"
    [ "A high-resolution, photorealistic image for a Meta ad.",
      "Subject: " ++ quoted productInfo ++ ".",
      "Style: " ++ quoted variation ++ ".",
      (if inputs.creativeFormat = CreativeFormat.VERTICAL then
        "Adapt for Instagram Reels."
      else
        "Use a clean, premium style."),
      (if optStrTruthy inputs.hookText then
        "Include the text " ++ quoted (inputs.hookText.getD "") ++
          " in a stylish and legible " ++ fontStyleStr inputs.fontStyle ++
          " font."
      else
        ""),
      "The image must be brand-safe and policy-compliant." ]

/-- The three text-to-image requests issued by the no-input-image branch of
`generateImages` (lines 132-142): one per variation prompt, each with
`numberOfImages: 1`, `outputMimeType: 'image/jpeg'` and the aspect ratio
mapped from the requested creative format. -/
def t2iRequests (inputs : UserInputs) (productInfo : String) :
    List GenImagesRequest :=
  (VARIATION_PROMPTS.map (t2iPrompt inputs productInfo)).map fun prompt =>
    { prompt := prompt
      numberOfImages := 1
      outputMimeType := "image/jpeg"
      aspectRatio := getAspectRatio inputs.creativeFormat }

/-- The image part found inside a fulfilled image-edit response
(`response.candidates?.[0]?.content?.parts?.find(part => part.inlineData)`,
line 106): its `inlineData` mime type and base64 data. -/
structure EditImagePart where
  mimeType : String
  data : String
deriving DecidableEq, Repr, Inhabited

/-- One step of the result collection of the image-edit branch (lines
105-113): a response whose image part exists and has truthy (non-empty)
`data` yields a data URL; any other response yields nothing (and is logged
and dropped). -/
def editToUrl : Option EditImagePart → Option String
  | some part =>
    if part.data = "" then none
    else some ("data:" ++ part.mimeType ++ ";base64," ++ part.data)
  | none => none

/-- Whether one image-edit call's outcome "returned an image" in the sense
of the collection step: the call fulfilled and its response contained an
image part with non-empty data. -/
def editHasImage : Except Err (Option EditImagePart) → Bool
  | .ok o => (editToUrl o).isSome
  | .error _ => false

/-- The state of the long-running video operation as seen by the polling
code: its `done` flag and, once present, the download URI
`operation.response?.generatedVideos?.[0]?.video?.uri`. -/
structure VideoOp where
  done : Bool
  videoUri : Option String
deriving DecidableEq, Repr, Inhabited

/-- The environment of external-service call outcomes for one pipeline run.
Each field gives the result of the corresponding call site in
src/services/geminiService.ts; `.error` models a rejected promise.  Call
sites that are executed repeatedly (the three image-edit requests, the
polling requests) or whose request content matters (text-to-image) are
indexed accordingly.  `uuid` supplies the values of the successive
`crypto.randomUUID()` calls of one assembly. -/
structure Env where
  /-- `generateContent` outcome for the product-description proofread. -/
  proofreadDescSvc : Except Err String
  /-- `generateContent` outcome for the product-URL info request (line 11). -/
  productInfoSvc : Except Err String
  /-- `generateContent` outcome for the hook-text proofread. -/
  proofreadHookSvc : Except Err String
  /-- `generateContent` + `JSON.parse` outcome for `generateAdCopy`
  (well-shaped fragment: the parsed value is a list of `AdCopy`). -/
  adCopySvc : Except Err (Except Unit (List AdCopy))
  /-- `generateContent` + `JSON.parse` outcome for `proofreadAdCopy`
  (`some l` = parsed to `l`; `none` = `JSON.parse` threw). -/
  proofreadCopySvc : Except Err (Option (List AdCopy))
  /-- Outcome of the `i`-th image-edit request (lines 93-101): the image
  part found in its response, if any. -/
  editImageSvc : Nat → Except Err (Option EditImagePart)
  /-- Outcome of a text-to-image request, by request. -/
  t2iSvc : GenImagesRequest → Except Err GenImagesResponse
  /-- Outcome of the initial `ai.models.generateVideos` request (line 178). -/
  initialVideoOp : Except Err VideoOp
  /-- Outcome of the `n`-th `ai.operations.getVideosOperation` poll. -/
  pollVideoOp : Nat → Except Err VideoOp
  /-- Outcome of `fetch(downloadLink + key)` followed by `.blob()` and
  `URL.createObjectURL` (lines 197-204): the local object URL, or an error
  covering both a rejected fetch and the `!videoResponse.ok` throw. -/
  fetchVideo : String → Except Err String
  /-- `crypto.randomUUID()` supply, indexed by record position. -/
  uuid : Nat → String

/-- `Promise.all` over already-determined outcomes: fulfils with the list of
results iff every promise fulfils, otherwise rejects.  (JavaScript rejects
with the first rejection in time; this model takes the first in list order —
only the error/success distinction is load-bearing.) -/
def promiseAll : List (Except Err α) → Except Err (List α)
  | [] => .ok []
  | x :: xs =>
    match x with
    | .error e => .error e
    | .ok v =>
      match promiseAll xs with
      | .error e => .error e
      | .ok vs => .ok (v :: vs)

/-- `getProductInfo` (src/services/geminiService.ts lines 8-18): with a
truthy product URL, one text-generation call whose failure propagates;
otherwise the product description, unchanged. -/
def getProductInfo (env : Env) (inputs : UserInputs) : Except Err String :=
  if optStrTruthy inputs.productUrl then env.productInfoSvc
  else .ok inputs.productDescription

/-- The `responses.map(res => ...)` of the text-to-image branch (lines
145-152): a response with no generated images throws, aborting the whole
map; otherwise the first image of each response becomes a JPEG data URL. -/
def collectT2I : List GenImagesResponse → Except Err (List String)
  | [] => .ok []
  | res :: rest =>
    if res.generatedImages.length = 0 then
      .error ⟨"Image generation failed to produce an image. Please try a different prompt."⟩
    else
      match collectT2I rest with
      | .error e => .error e
      | .ok urls =>
        .ok (("data:image/jpeg;base64," ++
          (res.generatedImages.headD default).imageBytes) :: urls)

/-- `generateImages` (src/services/geminiService.ts lines 72-154).  With a
product image: three concurrent image-edit requests (`Promise.all`, so any
rejection propagates), then the responses that contained an image with
non-empty data are collected into data URLs (the `reduce` of lines 105-113,
written as `filterMap`); zero collected images is an error.  Without a
product image: three concurrent text-to-image requests built by
`t2iRequests`; any response with an empty `generatedImages` list is an
error, otherwise each first image becomes a data URL. -/
def generateImages (env : Env) (inputs : UserInputs) (productInfo : String) :
    Except Err (List String) :=
  match inputs.productImage with
  | some _ =>
    match promiseAll
        ((List.range VARIATION_PROMPTS.length).map env.editImageSvc) with
    | .error e => .error e
    | .ok responses =>
      let successfulImages := responses.filterMap editToUrl
      if successfulImages.length = 0 then
        .error ⟨"Image editing failed to produce any images. The model may be unable to process the request. Please try a different image or prompt."⟩
      else
        .ok successfulImages
  | none =>
    match promiseAll ((t2iRequests inputs productInfo).map env.t2iSvc) with
    | .error e => .error e
    | .ok responses => collectT2I responses

/-- The `while (!operation.done)` polling loop of `generateVideos` (lines
185-188), with fuel.  Returns the loop's outcome (`none` = still running
after `fuel` iterations; `some (.error e)` = a poll rejected, aborting the
function; `some (.ok op)` = the loop exited with `op`) paired with the list
of `setTimeout` delays performed, one `10000` (milliseconds) before every
poll. -/
def pollLoop (pollOp : Nat → Except Err VideoOp) :
    Nat → VideoOp → Nat → Option (Except Err VideoOp) × List Nat
  | _, op, 0 => if op.done then (some (.ok op), []) else (none, [])
  | k, op, fuel + 1 =>
    if op.done then (some (.ok op), [])
    else
      match pollOp k with
      | .error e => (some (.error e), [10000])
      | .ok op2 =>
        let r := pollLoop pollOp (k + 1) op2 fuel
        (r.1, 10000 :: r.2)

/-- `generateVideos` (src/services/geminiService.ts lines 156-207).  The
prompt construction (lines 157-176) flows only into the external call and is
absorbed into `env.initialVideoOp`.  After the polling loop: no video URI is
an error; otherwise the download link is fetched and a local object URL
returned as a one-element list.  `none` = the polling loop is still running
after `fuel` iterations. -/
def generateVideos (env : Env) (inputs : UserInputs) (productInfo : String)
    (fuel : Nat) : Option (Except Err (List String)) :=
  match env.initialVideoOp with
  | .error e => some (.error e)
  | .ok op0 =>
    match (pollLoop env.pollVideoOp 0 op0 fuel).1 with
    | none => none
    | some (.error e) => some (.error e)
    | some (.ok opFinal) =>
      match opFinal.videoUri with
      | none => some (.error ⟨"Video generation failed. The model did not return a video. Please try a different prompt or image."⟩)
      | some downloadLink =>
        match env.fetchVideo downloadLink with
        | .error e => some (.error e)
        | .ok videoUrl => some (.ok [videoUrl])

/-- `variationNames` (src/services/geminiService.ts line 317). -/
def variationNames : List String := ["Minimalist", "Lifestyle", "Dynamic"]

/-- The result assembly of the image branch (lines 323-329): one record per
generated image URL, copy cycling through the available list
(`index % length`), variation label cycling through the fixed 3-name
list. -/
def assembleImageCreatives (uuid : Nat → String) (finalAdCopy : List AdCopy)
    (imageUrls : List String) : List AdCreative :=
  imageUrls.mapIdx fun index url =>
    { id := uuid index
      url := url
      type := CreativeType.IMAGE
      copy := finalAdCopy.getD (index % finalAdCopy.length) default
      variation := "Variation " ++ toString (index + 1) ++ ": " ++
        variationNames.getD (index % variationNames.length) "" }

/-- The result assembly of the video branch (lines 303-312): one record with
the first video URL and the first ad copy if a video was produced, else the
empty list. -/
def videoCreatives (uuid : Nat → String) (videoUrls : List String)
    (finalAdCopy : List AdCopy) : List AdCreative :=
  if videoUrls.length > 0 then
    [ { id := uuid 0
        url := videoUrls.headD ""
        type := CreativeType.VIDEO
        copy := finalAdCopy.headD default
        variation := "Video Creative" } ]
  else []

/-- Step 1 of `generateAdCreatives` (lines 278-280): proofread the product
description in place on the copy, only when no URL was supplied and the
description is truthy. -/
def proofreadDescStep (env : Env) (c0 : UserInputs) :
    Except Err UserInputs :=
  if optStrTruthy c0.productUrl = false ∧ c0.productDescription ≠ "" then
    match proofreadText env.proofreadDescSvc c0.productDescription
        "A product description for an online ad." with
    | .error e => .error e
    | .ok d => .ok { c0 with productDescription := d }
  else .ok c0

/-- Step 3 of `generateAdCreatives` (lines 286-288): proofread the hook text
in place on the copy, when truthy. -/
def proofreadHookStep (env : Env) (productInfo : String) (c1 : UserInputs) :
    Except Err UserInputs :=
  if optStrTruthy c1.hookText then
    match proofreadText env.proofreadHookSvc (c1.hookText.getD "")
        productInfo with
    | .error e => .error e
    | .ok h => .ok { c1 with hookText := some h }
  else .ok c1

/-- Steps 1-4 of `generateAdCreatives` (src/services/geminiService.ts lines
274-296): shallow-copy the inputs, proofread the description, resolve
product info, proofread the hook text, generate and proofread the ad copy,
and reject an empty final copy list.  Returns the corrected inputs, the
product info and the final ad copy. -/
def preAssetSteps (env : Env) (inputs : UserInputs) :
    Except Err (UserInputs × String × List AdCopy) :=
  match proofreadDescStep env inputs with
  | .error e => .error e
  | .ok c1 =>
    match getProductInfo env c1 with
    | .error e => .error e
    | .ok productInfo =>
      match proofreadHookStep env productInfo c1 with
      | .error e => .error e
      | .ok c2 =>
        match generateAdCopy env.adCopySvc productInfo with
        | .error e => .error e
        | .ok initialAdCopy =>
          match proofreadAdCopy env.proofreadCopySvc initialAdCopy
              productInfo with
          | .error e => .error e
          | .ok finalAdCopy =>
            if finalAdCopy.length = 0 then
              .error ⟨"Failed to generate ad copy."⟩
            else
              .ok (c2, productInfo, finalAdCopy)

/-- `generateAdCreatives` (src/services/geminiService.ts lines 274-331),
the exported pipeline entry point.  `fuel` bounds the video polling loop and
`none` means the run has not terminated within that bound (the image branch
always terminates).  The branch on the creative type tests the caller's
`inputs`, as in the source; the asset generators receive the corrected
copy. -/
def generateAdCreatives (env : Env) (fuel : Nat) (inputs : UserInputs) :
    Option (Except Err (List AdCreative)) :=
  match preAssetSteps env inputs with
  | .error e => some (.error e)
  | .ok (correctedInputs, productInfo, finalAdCopy) =>
    if inputs.creativeType = CreativeType.VIDEO then
      match generateVideos env correctedInputs productInfo fuel with
      | none => none
      | some (.error e) => some (.error e)
      | some (.ok videoUrls) =>
        some (.ok (videoCreatives env.uuid videoUrls finalAdCopy))
    else
      match generateImages env correctedInputs productInfo with
      | .error e => some (.error e)
      | .ok imageUrls =>
        if imageUrls.length = 0 then
          some (.error ⟨"Failed to generate images."⟩)
        else
          some (.ok (assembleImageCreatives env.uuid finalAdCopy imageUrls))

/-! ### The form submission handler (src/unnamed/part_000, `CreativeForm`) -/

/-- The form component's state at submission time (the `useState` fields of
`CreativeForm` in src/unnamed/part_000).  `productDescription`,
`productUrl` and `hookText` are text inputs (empty string when blank);
`productImage` is set only after a successful upload. -/
structure FormState where
  productDescription : String
  productImage : Option ProductImage
  productUrl : String
  creativeFormat : CreativeFormat
  creativeType : CreativeType
  hookText : String
  fontStyle : FontStyle
deriving DecidableEq, Repr

/-- The default description supplied by `handleSubmit` (src/unnamed/part_000
line 84) when description, URL and image are all absent. -/
def defaultDescription : String :=
  "Crea creative effetto wow per pubblicità professionale e iperealistica"

/-- `handleSubmit` (src/unnamed/part_000 lines 79-96): builds the
`UserInputs` value passed to the pipeline, substituting the default
description when the description, the URL and the image are all falsy. -/
def handleSubmit (s : FormState) : UserInputs :=
  let desc :=
    if s.productDescription = "" ∧ s.productUrl = "" ∧ s.productImage = none
    then defaultDescription
    else s.productDescription
  { productDescription := desc
    productImage := s.productImage
    productUrl := some s.productUrl
    creativeFormat := s.creativeFormat
    creativeType := s.creativeType
    hookText := some s.hookText
    fontStyle := some s.fontStyle }

/-! ### Object-identity model of `generateAdCreatives`

The TypeScript `generateAdCreatives` receives a reference to the caller's
`inputs` object, shallow-copies it (`const correctedInputs = { ...inputs }`,
line 275) and assigns only to the copy's fields.  To state that the caller's
object is never mutated, the function is repeated here over an explicit
object store: references are indices into a list of `UserInputs` objects,
the spread copy allocates a fresh object at the end of the store, and each
field assignment updates the store at the assigned reference.  Apart from
making the store explicit, the step structure is identical to
`generateAdCreatives` above. -/

/-- A store of `UserInputs` objects; a reference is an index. -/
abbrev Store := List UserInputs

/-- Dereference. -/
def storeGet (s : Store) (r : Nat) : UserInputs := s.getD r default

/-- Field-assignment: replace the object at reference `r`. -/
def storeSet (s : Store) (r : Nat) (v : UserInputs) : Store := s.set r v

/-- Step 1 of `generateAdCreatives` on the store: proofread the product
description in place on the object at `cRef`. -/
def proofreadDescStepRef (env : Env) (s : Store) (cRef : Nat) :
    Except Err Store :=
  if optStrTruthy (storeGet s cRef).productUrl = false ∧
      (storeGet s cRef).productDescription ≠ "" then
    match proofreadText env.proofreadDescSvc
        (storeGet s cRef).productDescription
        "A product description for an online ad." with
    | .error e => .error e
    | .ok d =>
      .ok (storeSet s cRef { storeGet s cRef with productDescription := d })
  else .ok s

/-- Step 3 of `generateAdCreatives` on the store: proofread the hook text in
place on the object at `cRef`. -/
def proofreadHookStepRef (env : Env) (productInfo : String) (s : Store)
    (cRef : Nat) : Except Err Store :=
  if optStrTruthy (storeGet s cRef).hookText then
    match proofreadText env.proofreadHookSvc
        ((storeGet s cRef).hookText.getD "") productInfo with
    | .error e => .error e
    | .ok h =>
      .ok (storeSet s cRef { storeGet s cRef with hookText := some h })
  else .ok s

/-- `generateAdCreatives` with the object store explicit: `inputsRef` is the
caller's reference; the returned store reflects every field assignment the
run performed.  Assignments happen only at `correctedInputs` (the object
allocated by the spread copy at reference `s0.length`); all other uses of
the inputs are reads. -/
def generateAdCreativesRef (env : Env) (fuel : Nat) (s0 : Store)
    (inputsRef : Nat) : Option (Except Err (List AdCreative)) × Store :=
  let inputs := storeGet s0 inputsRef
  let cRef := s0.length
  let s1 := s0 ++ [inputs]
  match proofreadDescStepRef env s1 cRef with
  | .error e => (some (.error e), s1)
  | .ok s2 =>
    match getProductInfo env (storeGet s2 cRef) with
    | .error e => (some (.error e), s2)
    | .ok productInfo =>
      match proofreadHookStepRef env productInfo s2 cRef with
      | .error e => (some (.error e), s2)
      | .ok s3 =>
        match generateAdCopy env.adCopySvc productInfo with
        | .error e => (some (.error e), s3)
        | .ok initialAdCopy =>
          match proofreadAdCopy env.proofreadCopySvc initialAdCopy
              productInfo with
          | .error e => (some (.error e), s3)
          | .ok finalAdCopy =>
            if finalAdCopy.length = 0 then
              (some (.error ⟨"Failed to generate ad copy."⟩), s3)
            else
              if inputs.creativeType = CreativeType.VIDEO then
                match generateVideos env (storeGet s3 cRef) productInfo
                    fuel with
                | none => (none, s3)
                | some (.error e) => (some (.error e), s3)
                | some (.ok videoUrls) =>
                  (some (.ok (videoCreatives env.uuid videoUrls finalAdCopy)),
                    s3)
              else
                match generateImages env (storeGet s3 cRef) productInfo with
                | .error e => (some (.error e), s3)
                | .ok imageUrls =>
                  if imageUrls.length = 0 then
                    (some (.error ⟨"Failed to generate images."⟩), s3)
                  else
                    (some (.ok (assembleImageCreatives env.uuid finalAdCopy
                      imageUrls)), s3)

/-- How many of the 3 style-variation edit requests of one run returned an
image. -/
def editSuccessCount (env : Env) : Nat :=
  ((List.range VARIATION_PROMPTS.length).filter
    (fun i => editHasImage (env.editImageSvc i))).length

/-! ### Concrete instances used to exercise the theorems -/

/-- A sample ad copy. -/
def sampleCopy : AdCopy := ⟨"Buy now", "Great product.", "Shop Now"⟩

/-- A benign environment: every call fulfils. -/
def baseEnv : Env :=
  { proofreadDescSvc := .ok "a product"
    productInfoSvc := .ok "url product"
    proofreadHookSvc := .ok "a hook"
    adCopySvc := .ok (.ok [sampleCopy])
    proofreadCopySvc := .ok none
    editImageSvc := fun _ => .ok (some ⟨"image/png", "AAA"⟩)
    t2iSvc := fun _ => .ok ⟨[⟨"BYTES"⟩]⟩
    initialVideoOp := .ok ⟨false, none⟩
    pollVideoOp := fun _ => .ok ⟨true, some "downloadLink"⟩
    fetchVideo := fun _ => .ok "blob:video-url"
    uuid := fun n => "uuid-" ++ toString n }

/-- Image-type inputs with a plain description. -/
def imageInputs : UserInputs :=
  ⟨"a product", none, none, .SQUARE, .IMAGE, none, none⟩

/-- Image-type inputs with a product image (image-edit branch). -/
def editInputs : UserInputs :=
  { imageInputs with productImage := some ⟨"image/jpeg", "IMGDATA"⟩ }

/-- Video-type inputs. -/
def videoInputs : UserInputs := { imageInputs with creativeType := .VIDEO }

/-- Environment whose text-to-image calls all return zero images. -/
def envZeroImages : Env := { baseEnv with t2iSvc := fun _ => .ok ⟨[]⟩ }

/-- Environment where edit variation 0 rejects and the other two return
images. -/
def envEditReject : Env :=
  { baseEnv with
    editImageSvc := fun i =>
      if i = 0 then .error ⟨"network error"⟩
      else .ok (some ⟨"image/png", "AAA"⟩) }

/-- Environment where only edit variation 0 returns an image. -/
def envEditPartial : Env :=
  { baseEnv with
    editImageSvc := fun i =>
      if i = 0 then .ok (some ⟨"image/png", "AAA"⟩) else .ok none }

/-- Environment where no edit variation returns an image (all fulfil with
no image part). -/
def envEditNone : Env := { baseEnv with editImageSvc := fun _ => .ok none }

/-- Environment whose video operation reports done on the second poll. -/
def envVideoDone : Env :=
  { baseEnv with
    pollVideoOp := fun n =>
      if n = 0 then .ok ⟨false, none⟩
      else .ok ⟨true, some "downloadLink"⟩ }

/-- Environment whose video operation never reports done. -/
def envVideoNever : Env :=
  { baseEnv with pollVideoOp := fun _ => .ok ⟨false, none⟩ }

/-! ## Helper lemmas -/

/-- The description-proofread step only rewrites `productDescription`. -/
theorem proofreadDescStep_fields (env : Env) (c0 c1 : UserInputs)
    (h : proofreadDescStep env c0 = .ok c1) :
    c1.productImage = c0.productImage ∧ c1.productUrl = c0.productUrl ∧
    c1.creativeFormat = c0.creativeFormat ∧
    c1.creativeType = c0.creativeType ∧ c1.hookText = c0.hookText ∧
    c1.fontStyle = c0.fontStyle := by
  unfold proofreadDescStep at h
  split at h
  · split at h
    · exact Except.noConfusion h
    · injection h with h'
      subst h'
      exact ⟨rfl, rfl, rfl, rfl, rfl, rfl⟩
  · injection h with h'
    subst h'
    exact ⟨rfl, rfl, rfl, rfl, rfl, rfl⟩

/-- The hook-proofread step only rewrites `hookText`. -/
theorem proofreadHookStep_fields (env : Env) (productInfo : String)
    (c1 c2 : UserInputs) (h : proofreadHookStep env productInfo c1 = .ok c2) :
    c2.productImage = c1.productImage ∧ c2.productUrl = c1.productUrl ∧
    c2.productDescription = c1.productDescription ∧
    c2.creativeFormat = c1.creativeFormat ∧
    c2.creativeType = c1.creativeType ∧
    c2.fontStyle = c1.fontStyle := by
  unfold proofreadHookStep at h
  split at h
  · split at h
    · exact Except.noConfusion h
    · injection h with h'
      subst h'
      exact ⟨rfl, rfl, rfl, rfl, rfl, rfl⟩
  · injection h with h'
    subst h'
    exact ⟨rfl, rfl, rfl, rfl, rfl, rfl⟩

/-- A successful `preAssetSteps` run leaves every field of the inputs other
than the proofread text fields unchanged on the corrected copy, and its
final ad-copy list is non-empty. -/
theorem preAssetSteps_fields (env : Env) (inputs c2 : UserInputs)
    (pinfo : String) (copies : List AdCopy)
    (h : preAssetSteps env inputs = .ok (c2, pinfo, copies)) :
    c2.productImage = inputs.productImage ∧
    c2.productUrl = inputs.productUrl ∧
    c2.creativeFormat = inputs.creativeFormat ∧
    c2.creativeType = inputs.creativeType ∧
    c2.fontStyle = inputs.fontStyle ∧
    copies ≠ [] := by
  unfold preAssetSteps at h
  split at h
  · exact Except.noConfusion h
  next c1 heq1 =>
    split at h
    · exact Except.noConfusion h
    next pinfo0 heq2 =>
      split at h
      · exact Except.noConfusion h
      next c20 heq3 =>
        split at h
        · exact Except.noConfusion h
        next copies0 heq4 =>
          split at h
          · exact Except.noConfusion h
          next copies1 heq5 =>
            split at h
            · exact Except.noConfusion h
            next hlen =>
              injection h with h'
              injection h' with ha hbc
              injection hbc with hb hc
              subst ha
              subst hb
              subst hc
              obtain ⟨d1, d2, d3, d4, _, d6⟩ :=
                proofreadDescStep_fields env inputs c1 heq1
              obtain ⟨e1, e2, _, e4, e5, e6⟩ :=
                proofreadHookStep_fields env pinfo0 c1 c20 heq3
              refine ⟨e1.trans d1, e2.trans d2, e4.trans d3, e5.trans d4,
                e6.trans d6, ?_⟩
              intro hnil
              exact hlen (by rw [hnil]; rfl)

/-- `promiseAll` fulfils only with every fulfilled value: a fulfilled
element's value is in the result list. -/
theorem promiseAll_ok_mem {l : List (Except Err α)} {vs : List α}
    (h : promiseAll l = .ok vs) {v : α} (hv : Except.ok v ∈ l) : v ∈ vs := by
  induction l generalizing vs with
  | nil => cases hv
  | cons x xs ih =>
    unfold promiseAll at h
    cases x with
    | error e => exact Except.noConfusion h
    | ok w =>
      cases hpa : promiseAll xs with
      | error e =>
        rw [hpa] at h
        exact Except.noConfusion h
      | ok ws =>
        rw [hpa] at h
        injection h with h'
        subst h'
        rcases List.mem_cons.mp hv with heq | hmem
        · injection heq with heq'
          rw [heq']
          exact List.mem_cons_self w ws
        · exact List.mem_cons_of_mem _ (ih hpa hmem)

/-- If some response of the text-to-image branch carries no generated
images, the collection step throws. -/
theorem collectT2I_error_of_empty_mem {responses : List GenImagesResponse}
    (h : ∃ res ∈ responses, res.generatedImages = []) :
    ∃ e, collectT2I responses = .error e := by
  induction responses with
  | nil =>
    rcases h with ⟨res, hmem, _⟩
    cases hmem
  | cons r rest ih =>
    rcases h with ⟨res, hmem, hempty⟩
    rcases List.mem_cons.mp hmem with rfl | hmem'
    · exact ⟨_, by unfold collectT2I; rw [if_pos (by rw [hempty]; rfl)]⟩
    · by_cases hr : r.generatedImages.length = 0
      · exact ⟨_, by unfold collectT2I; rw [if_pos hr]⟩
      · obtain ⟨e, he⟩ := ih ⟨res, hmem', hempty⟩
        refine ⟨e, ?_⟩
        unfold collectT2I
        rw [if_neg hr, he]

/-- Closed form of the image-edit branch when all three variation calls
fulfil. -/
theorem generateImages_edit_eq (env : Env) (inputs : UserInputs)
    (pinfo : String) (img : ProductImage)
    (himg : inputs.productImage = some img)
    (o0 o1 o2 : Option EditImagePart)
    (h0 : env.editImageSvc 0 = .ok o0) (h1 : env.editImageSvc 1 = .ok o1)
    (h2 : env.editImageSvc 2 = .ok o2) :
    generateImages env inputs pinfo =
      if ([o0, o1, o2].filterMap editToUrl).length = 0 then
        .error ⟨"Image editing failed to produce any images. The model may be unable to process the request. Please try a different image or prompt."⟩
      else .ok ([o0, o1, o2].filterMap editToUrl) := by
  have hall : promiseAll
      ((List.range VARIATION_PROMPTS.length).map env.editImageSvc)
      = .ok [o0, o1, o2] := by
    show promiseAll
      [env.editImageSvc 0, env.editImageSvc 1, env.editImageSvc 2] = _
    rw [h0, h1, h2]
    rfl
  simp only [generateImages, himg, hall]

/-- With all three edit calls fulfilled, the success count is the number of
collected data URLs. -/
theorem editSuccessCount_eq (env : Env) (o0 o1 o2 : Option EditImagePart)
    (h0 : env.editImageSvc 0 = .ok o0) (h1 : env.editImageSvc 1 = .ok o1)
    (h2 : env.editImageSvc 2 = .ok o2) :
    editSuccessCount env = ([o0, o1, o2].filterMap editToUrl).length := by
  have hc : editSuccessCount env
      = (([0, 1, 2] : List Nat).filter
          (fun i => editHasImage (env.editImageSvc i))).length := rfl
  rw [hc]
  simp only [List.filter, h0, h1, h2, editHasImage]
  rcases ho0 : editToUrl o0 with _ | u0 <;>
    rcases ho1 : editToUrl o1 with _ | u1 <;>
      rcases ho2 : editToUrl o2 with _ | u2 <;>
        simp [List.filterMap, ho0, ho1, ho2]

/-- Every delay performed by the polling loop is the fixed 10000 ms. -/
theorem pollLoop_sleeps (pollOp : Nat → Except Err VideoOp) :
    ∀ (fuel k : Nat) (op : VideoOp),
      ∀ x ∈ (pollLoop pollOp k op fuel).2, x = 10000 := by
  intro fuel
  induction fuel with
  | zero =>
    intro k op x hx
    by_cases hd : op.done = true <;> simp [pollLoop, hd] at hx
  | succ f ih =>
    intro k op x hx
    by_cases hd : op.done = true
    · simp [pollLoop, hd] at hx
    · rw [pollLoop] at hx
      rw [if_neg hd] at hx
      cases hp : pollOp k with
      | error e =>
        rw [hp] at hx
        simp at hx
        exact hx
      | ok op2 =>
        rw [hp] at hx
        simp at hx
        rcases hx with rfl | hx'
        · rfl
        · exact ih (k + 1) op2 x hx'

/-- The polling loop yields a value (rather than an error or exhausted
fuel) only with a `done` operation state. -/
theorem pollLoop_ok_done (pollOp : Nat → Except Err VideoOp) :
    ∀ (fuel k : Nat) (op r : VideoOp),
      (pollLoop pollOp k op fuel).1 = some (.ok r) → r.done = true := by
  intro fuel
  induction fuel with
  | zero =>
    intro k op r h
    by_cases hd : op.done = true
    · simp [pollLoop, hd] at h
      rw [← h]
      exact hd
    · simp [pollLoop, hd] at h
  | succ f ih =>
    intro k op r h
    by_cases hd : op.done = true
    · simp [pollLoop, hd] at h
      rw [← h]
      exact hd
    · rw [pollLoop] at h
      rw [if_neg hd] at h
      cases hp : pollOp k with
      | error e =>
        rw [hp] at h
        simp at h
      | ok op2 =>
        rw [hp] at h
        simp at h
        exact ih (k + 1) op2 r h

/-- If every poll fulfils with a not-done state, the loop is still running
whatever the fuel. -/
theorem pollLoop_never_done (pollOp : Nat → Except Err VideoOp)
    (hnever : ∀ n, ∃ o, pollOp n = .ok o ∧ o.done = false) :
    ∀ (fuel k : Nat) (op : VideoOp), op.done = false →
      (pollLoop pollOp k op fuel).1 = none := by
  intro fuel
  induction fuel with
  | zero =>
    intro k op hd
    simp [pollLoop, hd]
  | succ f ih =>
    intro k op hd
    obtain ⟨o, ho, hod⟩ := hnever k
    rw [pollLoop]
    rw [if_neg (by rw [hd]; intro hc; exact Bool.noConfusion hc)]
    rw [ho]
    simpa using ih (k + 1) o hod

/-- If polls `k`..`k+N-1` fulfil not-done and poll `k+N` fulfils done with
`opN`, the loop exits with `opN` for any fuel above `N`. -/
theorem pollLoop_first_done (pollOp : Nat → Except Err VideoOp) :
    ∀ (N fuel k : Nat) (op opN : VideoOp), op.done = false →
      (∀ j, j < N → ∃ o, pollOp (k + j) = .ok o ∧ o.done = false) →
      pollOp (k + N) = .ok opN → opN.done = true → N < fuel →
      (pollLoop pollOp k op fuel).1 = some (.ok opN) := by
  intro N
  induction N with
  | zero =>
    intro fuel k op opN hd hprev hN hdone hfuel
    cases fuel with
    | zero => omega
    | succ f =>
      rw [Nat.add_zero] at hN
      rw [pollLoop]
      rw [if_neg (by rw [hd]; intro hc; exact Bool.noConfusion hc)]
      rw [hN]
      cases f with
      | zero => simp [pollLoop, hdone]
      | succ g => simp [pollLoop, hdone]
  | succ n ih =>
    intro fuel k op opN hd hprev hN hdone hfuel
    cases fuel with
    | zero => omega
    | succ f =>
      obtain ⟨o, ho, hod⟩ := hprev 0 (Nat.succ_pos n)
      rw [Nat.add_zero] at ho
      rw [pollLoop]
      rw [if_neg (by rw [hd]; intro hc; exact Bool.noConfusion hc)]
      rw [ho]
      have hrec := ih f (k + 1) o opN hod
        (fun j hj => by
          have := hprev (j + 1) (by omega)
          rw [show k + (j + 1) = k + 1 + j by omega] at this
          exact this)
        (by rw [show k + 1 + n = k + (n + 1) by omega]; exact hN)
        hdone (by omega)
      simpa using hrec

/-- Appending a fresh object does not change existing references. -/
theorem storeGet_append_lt (s : Store) (x : UserInputs) (r : Nat)
    (hr : r < s.length) : storeGet (s ++ [x]) r = storeGet s r := by
  unfold storeGet
  exact List.getD_append s [x] default r hr

/-- Assigning through one reference does not change a different one. -/
theorem storeGet_set_ne (s : Store) (i r : Nat) (v : UserInputs)
    (hne : i ≠ r) : storeGet (storeSet s i v) r = storeGet s r := by
  unfold storeGet storeSet
  rw [List.getD_eq_getD_get?, List.getD_eq_getD_get?,
    List.get?_set_ne v s hne]

/-- The description-proofread step writes only at `cRef`. -/
theorem proofreadDescStepRef_frame (env : Env) (s s' : Store) (cRef r : Nat)
    (h : proofreadDescStepRef env s cRef = .ok s') (hne : cRef ≠ r) :
    storeGet s' r = storeGet s r := by
  unfold proofreadDescStepRef at h
  split at h
  · split at h
    · exact Except.noConfusion h
    · injection h with h'
      subst h'
      exact storeGet_set_ne s cRef r _ hne
  · injection h with h'
    subst h'
    rfl

/-- The hook-proofread step writes only at `cRef`. -/
theorem proofreadHookStepRef_frame (env : Env) (productInfo : String)
    (s s' : Store) (cRef r : Nat)
    (h : proofreadHookStepRef env productInfo s cRef = .ok s')
    (hne : cRef ≠ r) : storeGet s' r = storeGet s r := by
  unfold proofreadHookStepRef at h
  split at h
  · split at h
    · exact Except.noConfusion h
    · injection h with h'
      subst h'
      exact storeGet_set_ne s cRef r _ hne
  · injection h with h'
    subst h'
    rfl

/-! ## Claims -/

/-- C1: ProofreadingPass never throws: for every text input (`proofreadText`)
and every AdCopy list (`proofreadAdCopy`), with any context string, if the
underlying service call fails or its output is unparsable, the operation
returns the original input unmodified instead of raising an error. -/
theorem c1_proofreading_pass_never_throws
    (svcT : Except Err String) (text context : String)
    (svcC : Except Err (Option (List AdCopy))) (adCopies : List AdCopy)
    (context2 : String) :
    ((proofreadText svcT text context).isOk = true ∧
      (∀ e, svcT = .error e → proofreadText svcT text context = .ok text)) ∧
    ((proofreadAdCopy svcC adCopies context2).isOk = true ∧
      (∀ e, svcC = .error e →
        proofreadAdCopy svcC adCopies context2 = .ok adCopies) ∧
      (svcC = .ok none →
        proofreadAdCopy svcC adCopies context2 = .ok adCopies)) := by
  refine ⟨⟨?_, ?_⟩, ?_, ?_, ?_⟩
  · unfold proofreadText
    split
    · rfl
    · cases svcT <;> rfl
  · intro e he
    subst he
    unfold proofreadText
    split <;> rfl
  · unfold proofreadAdCopy
    split
    · rfl
    · rcases svcC with e | o
      · rfl
      · rcases o with _ | l <;> rfl
  · intro e he
    subst he
    unfold proofreadAdCopy
    split <;> rfl
  · intro he
    subst he
    unfold proofreadAdCopy
    split <;> rfl

/-- Witness for C1 at concrete inputs: a rejected call leaves the text
unchanged, and an unparsable proofread response leaves the copy list
unchanged. -/
theorem c1_proofreading_pass_never_throws_witness :
    proofreadText (.error ⟨"network down"⟩) "helo wrld" "ctx" =
      .ok "helo wrld" ∧
    proofreadAdCopy (.ok none) [⟨"H", "P", "C"⟩] "ctx" =
      .ok [⟨"H", "P", "C"⟩] :=
  ⟨(c1_proofreading_pass_never_throws (.error ⟨"network down"⟩) "helo wrld"
      "ctx" (.ok none) [⟨"H", "P", "C"⟩] "ctx").1.2 _ rfl,
    (c1_proofreading_pass_never_throws (.error ⟨"network down"⟩) "helo wrld"
      "ctx" (.ok none) [⟨"H", "P", "C"⟩] "ctx").2.2.2 rfl⟩

/-- Counterexample to C3 as stated: a service response whose text is valid
JSON but not of the expected array-of-objects shape (here the parse of the
text `{}`, the empty object) is returned by `generateAdCopy` as-is, with no
error raised — the code validates only that `JSON.parse` succeeds, not the
shape. -/
theorem c3_wrong_shape_not_rejected_counterexample :
    generateAdCopy (Except.ok (Except.ok (Json.obj []))) "product info" =
      .ok (Json.obj []) ∧
    decodeAdCopyList (Json.obj []) = none ∧
    (generateAdCopy (Except.ok (Except.ok (Json.obj []))) "product info").isOk
      = true :=
  ⟨rfl, rfl, rfl⟩

/-- C3 (amended): `generateAdCopy` raises exactly when the underlying call
fails (the error propagates) or the response text is not syntactically valid
JSON (`JSON.parse` throws, raised as the generation error); a successfully
parsed response value is returned without shape validation. -/
theorem c3_generate_ad_copy_fail_closed (productInfo : String) :
    (∀ svc : Except Err (Except Unit Json),
      ((generateAdCopy svc productInfo).isOk = true ↔
        ∃ v, svc = Except.ok (Except.ok v))) ∧
    (∀ e : Err, generateAdCopy
      (Except.error e : Except Err (Except Unit Json)) productInfo =
        .error e) ∧
    (generateAdCopy (Except.ok (Except.error () : Except Unit Json))
      productInfo = .error ⟨"Failed to generate valid ad copy."⟩) ∧
    (∀ v : Json, generateAdCopy (Except.ok (Except.ok v)) productInfo =
      .ok v) := by
  refine ⟨?_, fun e => rfl, rfl, fun v => rfl⟩
  intro svc
  constructor
  · intro h
    rcases svc with e | p
    · simp [generateAdCopy, Except.isOk, Except.toBool] at h
    · rcases p with u | v
      · simp [generateAdCopy, Except.isOk, Except.toBool] at h
      · exact ⟨v, rfl⟩
  · rintro ⟨v, rfl⟩
    rfl

/-- Witness for C3's amended theorem: a parsed empty-array response is
accepted (no error). -/
theorem c3_generate_ad_copy_fail_closed_witness :
    (generateAdCopy (Except.ok (Except.ok (Json.arr []))) "info").isOk
      = true :=
  ((c3_generate_ad_copy_fail_closed "info").1
    (Except.ok (Except.ok (Json.arr [])))).mpr ⟨Json.arr [], rfl⟩

/-- C7: for every form state lacking a product description, a product URL
and a product image, `handleSubmit` supplies the (non-empty) default
description in the `UserInputs` it builds, so generation never starts with
an entirely empty description. -/
theorem c7_default_description_supplied (s : FormState)
    (hd : s.productDescription = "") (hu : s.productUrl = "")
    (hi : s.productImage = none) :
    (handleSubmit s).productDescription = defaultDescription ∧
    (handleSubmit s).productDescription ≠ "" := by
  have h : (handleSubmit s).productDescription = defaultDescription := by
    unfold handleSubmit
    simp [hd, hu, hi]
  refine ⟨h, ?_⟩
  rw [h]
  decide

/-- Witness for C7: the all-empty form state. -/
theorem c7_default_description_supplied_witness :
    (handleSubmit ⟨"", none, "", .SQUARE, .IMAGE, "", .MODERN⟩).productDescription
        = defaultDescription ∧
    (handleSubmit ⟨"", none, "", .SQUARE, .IMAGE, "", .MODERN⟩).productDescription
        ≠ "" :=
  c7_default_description_supplied ⟨"", none, "", .SQUARE, .IMAGE, "", .MODERN⟩
    rfl rfl rfl

/-- C9: `getAspectRatio` maps square to "1:1", horizontal to "16:9" and
vertical to "9:16", and each of the 3 text-to-image requests of the
no-input-image branch carries the aspect ratio mapped from the requested
creative format. -/
theorem c9_aspect_ratio_mapping :
    (getAspectRatio CreativeFormat.SQUARE = "1:1" ∧
      getAspectRatio CreativeFormat.HORIZONTAL = "16:9" ∧
      getAspectRatio CreativeFormat.VERTICAL = "9:16") ∧
    (∀ (inputs : UserInputs) (productInfo : String),
      (t2iRequests inputs productInfo).length = 3 ∧
      ∀ r ∈ t2iRequests inputs productInfo,
        r.aspectRatio = getAspectRatio inputs.creativeFormat) := by
  refine ⟨⟨rfl, rfl, rfl⟩, fun inputs productInfo => ⟨?_, ?_⟩⟩
  · simp [t2iRequests, VARIATION_PROMPTS]
  · intro r hr
    simp only [t2iRequests, List.map_map, List.mem_map] at hr
    obtain ⟨p, hp, rfl⟩ := hr
    rfl

set_option maxRecDepth 4000 in
/-- Witness for C9: the first text-to-image request of a square-format run
carries aspect ratio "1:1". -/
theorem c9_aspect_ratio_mapping_witness :
    ((t2iRequests ⟨"d", none, none, .SQUARE, .IMAGE, none, none⟩ "p").headD
        ⟨"", 0, "", ""⟩).aspectRatio = "1:1" :=
  (c9_aspect_ratio_mapping.2 ⟨"d", none, none, .SQUARE, .IMAGE, none, none⟩
    "p").2 _ (by decide)

/-- Counterexample to C8 as stated: a successful response text that carries
a leading quotation mark but no trailing one (so it is not "wrapped in a
pair") is not returned unmodified — the leading quote is stripped anyway,
because the regex `^"|"$` removes each end independently. -/
theorem c8_one_sided_quote_counterexample :
    proofreadText (.ok (String.mk (quoteChar :: "helo".data))) "hi" "ctx" =
      .ok "helo" ∧
    String.mk (quoteChar :: "helo".data) ≠ "helo" := by
  constructor
  · rfl
  · decide

/-- C8 (amended): for empty or whitespace-only input, `proofreadText`
returns the input unchanged without reaching the service call; otherwise, on
a successful call returning `t`, it returns `t` trimmed of surrounding
whitespace with a leading quotation mark removed if present and a trailing
quotation mark removed if present, each independently (clauses 3-6
characterise that quote-stripping on the four leading/trailing cases). -/
theorem c8_proofread_text_quote_handling (t text context : String) :
    (jsTrim text = "" →
      (∀ svc, proofreadText svc text context = .ok text) ∧
      proofreadTextCallsService text = false) ∧
    (jsTrim text ≠ "" →
      proofreadText (.ok t) text context = .ok (stripWrapQuotes (jsTrim t)) ∧
      proofreadTextCallsService text = true) ∧
    (∀ l : List Char, stripQuotesCore (quoteChar :: (l ++ [quoteChar])) = l) ∧
    (∀ l : List Char, l.getLast? ≠ some quoteChar →
      stripQuotesCore (quoteChar :: l) = l) ∧
    (∀ l : List Char, l.head? ≠ some quoteChar →
      l.getLast? = some quoteChar → stripQuotesCore l = l.dropLast) ∧
    (∀ l : List Char, l.head? ≠ some quoteChar →
      l.getLast? ≠ some quoteChar → stripQuotesCore l = l) := by
  refine ⟨?_, ?_, ?_, ?_, ?_, ?_⟩
  · intro h
    constructor
    · intro svc
      unfold proofreadText
      rw [if_pos (Or.inr h)]
    · unfold proofreadTextCallsService
      simp [h]
  · intro h
    have hne : ¬(text = "") := fun he => h (by rw [he]; rfl)
    have hguard : ¬(text = "" ∨ jsTrim text = "") := by
      rintro (he | he)
      · exact hne he
      · exact h he
    constructor
    · unfold proofreadText
      rw [if_neg hguard]
    · unfold proofreadTextCallsService
      simp [hne, h]
  · intro l
    simp [stripQuotesCore, List.getLast?_concat, List.dropLast_concat]
  · intro l h
    simp [stripQuotesCore, h]
  · intro l h1 h2
    cases l with
    | nil => simp at h2
    | cons c rest =>
      have hc : ¬(c = quoteChar) := by simpa using h1
      simp [stripQuotesCore, hc, h2]
  · intro l h1 h2
    cases l with
    | nil => simp [stripQuotesCore]
    | cons c rest =>
      have hc : ¬(c = quoteChar) := by simpa using h1
      simp [stripQuotesCore, hc, h2]

/-- Witness for C8's amended theorem: a whitespace-only input is returned
unchanged without a service call; a successful response is trimmed; a
wrapped pair of quotes is stripped. -/
theorem c8_proofread_text_quote_handling_witness :
    proofreadText (.error ⟨"x"⟩) "   " "c" = .ok "   " ∧
    proofreadTextCallsService "   " = false ∧
    proofreadText (.ok " resuld ") "input" "c" = .ok "resuld" ∧
    stripQuotesCore (quoteChar :: ("ab".data ++ [quoteChar])) = "ab".data := by
  have h1 := (c8_proofread_text_quote_handling " resuld " "   " "c").1
    (by decide)
  have h2 := (c8_proofread_text_quote_handling " resuld " "input" "c").2.1
    (by decide)
  have h3 := (c8_proofread_text_quote_handling " resuld " "input" "c").2.2.1
    "ab".data
  exact ⟨h1.1 _, h1.2, h2.1.trans (by decide), h3⟩

/-- C5: for every list of generated image URLs and every non-empty copy
list of length `m`, the assembled result has exactly one record per URL, and
the record at index `i` carries the copy at index `i % m` and the variation
label built from the name at index `i % 3` of the fixed 3-name list
(`"Variation " ++ (i+1) ++ ": " ++ name`). -/
theorem c5_creative_assembler_cycling (uuid : Nat → String)
    (finalAdCopy : List AdCopy) (imageUrls : List String)
    (hcopy : finalAdCopy ≠ []) :
    (assembleImageCreatives uuid finalAdCopy imageUrls).length
      = imageUrls.length ∧
    ∀ i, i < imageUrls.length →
      ((assembleImageCreatives uuid finalAdCopy imageUrls).getD i default).copy
          = finalAdCopy.getD (i % finalAdCopy.length) default ∧
      ((assembleImageCreatives uuid finalAdCopy
          imageUrls).getD i default).variation
          = "Variation " ++ toString (i + 1) ++ ": " ++
            variationNames.getD (i % 3) "" := by
  have hlen : (assembleImageCreatives uuid finalAdCopy imageUrls).length
      = imageUrls.length := by
    simp [assembleImageCreatives]
  refine ⟨hlen, fun i hi => ?_⟩
  have hi' : i < (assembleImageCreatives uuid finalAdCopy imageUrls).length := by
    rw [hlen]; exact hi
  have hel : (assembleImageCreatives uuid finalAdCopy imageUrls).getD i default
      = { id := uuid i
          url := imageUrls.getD i ""
          type := CreativeType.IMAGE
          copy := finalAdCopy.getD (i % finalAdCopy.length) default
          variation := "Variation " ++ toString (i + 1) ++ ": " ++
            variationNames.getD (i % variationNames.length) "" } := by
    unfold assembleImageCreatives at hi' ⊢
    rw [List.getD_eq_getElem _ _ hi', List.getD_eq_getElem _ _ hi]
    exact List.get_mapIdx imageUrls _ i hi
  rw [hel]
  exact ⟨rfl, rfl⟩

/-- Witness for C5 at the claim's own instance: 4 generated images and 3
copy entries; the creative at index 3 carries copy index 0 and the record
count is 4. -/
theorem c5_creative_assembler_cycling_witness :
    (assembleImageCreatives (fun n => toString n)
        [⟨"hA", "pA", "cA"⟩, ⟨"hB", "pB", "cB"⟩, ⟨"hC", "pC", "cC"⟩]
        ["u0", "u1", "u2", "u3"]).length = 4 ∧
    ((assembleImageCreatives (fun n => toString n)
        [⟨"hA", "pA", "cA"⟩, ⟨"hB", "pB", "cB"⟩, ⟨"hC", "pC", "cC"⟩]
        ["u0", "u1", "u2", "u3"]).getD 3 default).copy = ⟨"hA", "pA", "cA"⟩ := by
  have h := c5_creative_assembler_cycling (fun n => toString n)
    [⟨"hA", "pA", "cA"⟩, ⟨"hB", "pB", "cB"⟩, ⟨"hC", "pC", "cC"⟩]
    ["u0", "u1", "u2", "u3"] (by decide)
  exact ⟨h.1, ((h.2 3 (by decide)).1).trans (by decide)⟩

/-- C4: text-to-image branch has no partial tolerance: when no product
image is supplied, if any single one of the 3 style-variation requests
returns zero images, `generateImages` raises an error and the whole pipeline
fails. -/
theorem c4_text_to_image_no_partial_tolerance
    (env : Env) (fuel : Nat) (inputs c2 : UserInputs) (pinfo : String)
    (copies : List AdCopy)
    (htype : inputs.creativeType = CreativeType.IMAGE)
    (himg : inputs.productImage = none)
    (hpre : preAssetSteps env inputs = .ok (c2, pinfo, copies))
    (hzero : ∃ r ∈ t2iRequests c2 pinfo, env.t2iSvc r = .ok ⟨[]⟩) :
    (generateImages env c2 pinfo).isOk = false ∧
    ∃ e, generateAdCreatives env fuel inputs = some (.error e) := by
  obtain ⟨hImg2, -, -, -, -, -⟩ :=
    preAssetSteps_fields env inputs c2 pinfo copies hpre
  rw [himg] at hImg2
  have hgen : ∃ e, generateImages env c2 pinfo = .error e := by
    rcases hzero with ⟨r, hrmem, hrok⟩
    cases hpa : promiseAll ((t2iRequests c2 pinfo).map env.t2iSvc) with
    | error e => exact ⟨e, by simp [generateImages, hImg2, hpa]⟩
    | ok responses =>
      have hokmem : Except.ok (⟨[]⟩ : GenImagesResponse) ∈
          (t2iRequests c2 pinfo).map env.t2iSvc := by
        have := List.mem_map_of_mem env.t2iSvc hrmem
        rw [hrok] at this
        exact this
      have hmem : (⟨[]⟩ : GenImagesResponse) ∈ responses :=
        promiseAll_ok_mem hpa hokmem
      obtain ⟨e, he⟩ := collectT2I_error_of_empty_mem ⟨⟨[]⟩, hmem, rfl⟩
      exact ⟨e, by simp [generateImages, hImg2, hpa, he]⟩
  obtain ⟨e, he⟩ := hgen
  refine ⟨by rw [he]; rfl, e, ?_⟩
  simp [generateAdCreatives, hpre, htype, he]

set_option maxRecDepth 8000 in
/-- Witness for C4: with every text-to-image call returning zero images,
`generateImages` is not ok and the pipeline fails. -/
theorem c4_text_to_image_no_partial_tolerance_witness :
    (generateImages envZeroImages imageInputs "a product").isOk = false ∧
    generateAdCreatives envZeroImages 0 imageInputs =
      some (.error ⟨"Image generation failed to produce an image. Please try a different prompt."⟩) :=
  ⟨(c4_text_to_image_no_partial_tolerance envZeroImages 0 imageInputs
      imageInputs "a product" [sampleCopy] rfl rfl rfl
      ⟨(t2iRequests imageInputs "a product").headD ⟨"", 0, "", ""⟩,
        by decide, rfl⟩).1,
    by decide⟩

/-- Counterexample to C2 as stated: an outcome of the 3 style-variation
requests in which exactly 2 of 3 return an image (variation 0 rejects,
variations 1 and 2 return images) does not make the run succeed with 2
records — `Promise.all` rejects, so the whole pipeline fails. -/
theorem c2_rejected_request_counterexample :
    editSuccessCount envEditReject = 2 ∧
    generateAdCreatives envEditReject 0 editInputs =
      some (.error ⟨"network error"⟩) := by
  exact ⟨rfl, by decide⟩

/-- C2 (amended): when a product image is supplied and all 3 style-variation
requests fulfil, if exactly `k` of 3 return an image with `1 ≤ k ≤ 3` the
run succeeds with exactly `k` creative records, and if `0` of 3 return an
image the whole pipeline fails with an error; a rejected request instead
fails the pipeline regardless of the other variations (see the
counterexample). -/
theorem c2_image_edit_partial_tolerance
    (env : Env) (fuel : Nat) (inputs c2 : UserInputs) (pinfo : String)
    (copies : List AdCopy) (img : ProductImage)
    (o0 o1 o2 : Option EditImagePart)
    (htype : inputs.creativeType = CreativeType.IMAGE)
    (himg : inputs.productImage = some img)
    (hpre : preAssetSteps env inputs = .ok (c2, pinfo, copies))
    (h0 : env.editImageSvc 0 = .ok o0) (h1 : env.editImageSvc 1 = .ok o1)
    (h2 : env.editImageSvc 2 = .ok o2) :
    (1 ≤ editSuccessCount env →
      ∃ cs, generateAdCreatives env fuel inputs = some (.ok cs) ∧
        cs.length = editSuccessCount env) ∧
    (editSuccessCount env = 0 →
      ∃ e, generateAdCreatives env fuel inputs = some (.error e)) := by
  obtain ⟨hImg2, -, -, -, -, -⟩ :=
    preAssetSteps_fields env inputs c2 pinfo copies hpre
  rw [himg] at hImg2
  have hgi := generateImages_edit_eq env c2 pinfo img hImg2 o0 o1 o2 h0 h1 h2
  have hcnt := editSuccessCount_eq env o0 o1 o2 h0 h1 h2
  constructor
  · intro hk
    have hne : ¬(([o0, o1, o2].filterMap editToUrl).length = 0) := by
      rw [← hcnt]
      omega
    refine ⟨assembleImageCreatives env.uuid copies
      ([o0, o1, o2].filterMap editToUrl), ?_, ?_⟩
    · simp [generateAdCreatives, hpre, htype, hgi, hne]
    · rw [hcnt]
      simp [assembleImageCreatives]
  · intro hk
    have hz : ([o0, o1, o2].filterMap editToUrl).length = 0 := by
      rw [← hcnt]
      exact hk
    refine ⟨⟨"Image editing failed to produce any images. The model may be unable to process the request. Please try a different image or prompt."⟩, ?_⟩
    simp [generateAdCreatives, hpre, htype, hgi, hz]

/-- Witness for C2's amended theorem: with exactly 1 of 3 edit variations
returning an image the run yields exactly 1 record, and with 0 of 3 the run
fails with the image-editing error. -/
theorem c2_image_edit_partial_tolerance_witness :
    editSuccessCount envEditPartial = 1 ∧
    generateAdCreatives envEditPartial 0 editInputs =
      some (.ok [⟨"uuid-0", "data:image/png;base64,AAA", CreativeType.IMAGE,
        sampleCopy, "Variation 1: Minimalist"⟩]) ∧
    generateAdCreatives envEditNone 0 editInputs =
      some (.error ⟨"Image editing failed to produce any images. The model may be unable to process the request. Please try a different image or prompt."⟩) := by
  obtain ⟨cs, hcs, hlen⟩ := (c2_image_edit_partial_tolerance envEditPartial 0
    editInputs editInputs "a product" [sampleCopy] ⟨"image/jpeg", "IMGDATA"⟩
    (some ⟨"image/png", "AAA"⟩) none none rfl rfl rfl rfl rfl rfl).1
    (by decide)
  obtain ⟨e, he⟩ := (c2_image_edit_partial_tolerance envEditNone 0
    editInputs editInputs "a product" [sampleCopy] ⟨"image/jpeg", "IMGDATA"⟩
    none none none rfl rfl rfl rfl rfl rfl).2 rfl
  exact ⟨rfl, by decide, by decide⟩

/-- C6: the video branch polls on a fixed 10-second (10000 ms) interval
(part 1); the polling loop yields a value only when a poll reports done
(part 2); for an operation that never transitions to done the run does not
terminate — no amount of fuel makes it return (part 3); and when the `N`-th
poll reports done, the final record uses the video reference fetched from
the returned location (part 4). -/
theorem c6_video_polling_unbounded :
    (∀ (pollOp : Nat → Except Err VideoOp) (fuel k : Nat) (op : VideoOp),
      ∀ x ∈ (pollLoop pollOp k op fuel).2, x = 10000) ∧
    (∀ (pollOp : Nat → Except Err VideoOp) (fuel k : Nat) (op r : VideoOp),
      (pollLoop pollOp k op fuel).1 = some (.ok r) → r.done = true) ∧
    (∀ (env : Env) (fuel : Nat) (inputs c2 : UserInputs) (pinfo : String)
      (copies : List AdCopy) (op0 : VideoOp),
      inputs.creativeType = CreativeType.VIDEO →
      preAssetSteps env inputs = .ok (c2, pinfo, copies) →
      env.initialVideoOp = .ok op0 → op0.done = false →
      (∀ n, ∃ o, env.pollVideoOp n = .ok o ∧ o.done = false) →
      generateAdCreatives env fuel inputs = none) ∧
    (∀ (env : Env) (fuel N : Nat) (inputs c2 : UserInputs) (pinfo : String)
      (copies : List AdCopy) (op0 opN : VideoOp) (u localUrl : String),
      inputs.creativeType = CreativeType.VIDEO →
      preAssetSteps env inputs = .ok (c2, pinfo, copies) →
      env.initialVideoOp = .ok op0 → op0.done = false →
      (∀ j, j < N → ∃ o, env.pollVideoOp j = .ok o ∧ o.done = false) →
      env.pollVideoOp N = .ok opN → opN.done = true →
      opN.videoUri = some u → env.fetchVideo u = .ok localUrl → N < fuel →
      generateAdCreatives env fuel inputs =
        some (.ok [⟨env.uuid 0, localUrl, CreativeType.VIDEO,
          copies.headD default, "Video Creative"⟩])) := by
  refine ⟨fun pollOp => pollLoop_sleeps pollOp,
    fun pollOp => pollLoop_ok_done pollOp, ?_, ?_⟩
  · intro env fuel inputs c2 pinfo copies op0 htype hpre h0 hnd0 hnever
    have hloop := pollLoop_never_done env.pollVideoOp hnever fuel 0 op0 hnd0
    simp [generateAdCreatives, hpre, htype, generateVideos, h0, hloop]
  · intro env fuel N inputs c2 pinfo copies op0 opN u localUrl htype hpre
      h0 hnd0 hpolls hN hdone huri hfetch hfuel
    have hloop := pollLoop_first_done env.pollVideoOp N fuel 0 op0 opN hnd0
      (fun j hj => by rw [Nat.zero_add]; exact hpolls j hj)
      (by rw [Nat.zero_add]; exact hN) hdone hfuel
    simp [generateAdCreatives, hpre, htype, generateVideos, h0, hloop, huri,
      hfetch, videoCreatives]

/-- Witness for C6: a never-done operation keeps the pipeline running after
50 polls; an operation done on the second poll yields one video record whose
URL is the fetched reference. -/
theorem c6_video_polling_unbounded_witness :
    generateAdCreatives envVideoNever 50 videoInputs = none ∧
    generateAdCreatives envVideoDone 2 videoInputs =
      some (.ok [⟨"uuid-0", "blob:video-url", CreativeType.VIDEO, sampleCopy,
        "Video Creative"⟩]) := by
  constructor
  · exact c6_video_polling_unbounded.2.2.1 envVideoNever 50 videoInputs
      videoInputs "a product" [sampleCopy] ⟨false, none⟩ rfl rfl rfl rfl
      (fun n => ⟨⟨false, none⟩, rfl, rfl⟩)
  · have h := c6_video_polling_unbounded.2.2.2 envVideoDone 2 1 videoInputs
      videoInputs "a product" [sampleCopy] ⟨false, none⟩
      ⟨true, some "downloadLink"⟩ "downloadLink" "blob:video-url" rfl rfl
      rfl rfl
      (fun j hj => ⟨⟨false, none⟩, by
        have hj0 : j = 0 := by omega
        subst hj0
        exact rfl, rfl⟩)
      rfl rfl rfl rfl (by omega)
    exact h.trans (by decide)

/-- C10: the pipeline never mutates its caller's argument object: for every
store and valid caller reference, after the run — whether it yields a
result, an error, or is still polling — the caller's object (hence each of
its fields) is unchanged; all proofreading corrections are applied to the
shallow copy allocated at a fresh reference. -/
theorem c10_inputs_not_mutated (env : Env) (fuel : Nat) (s0 : Store)
    (r : Nat) (hr : r < s0.length) :
    storeGet (generateAdCreativesRef env fuel s0 r).2 r = storeGet s0 r := by
  have hne : s0.length ≠ r := by omega
  have hs1 : storeGet (s0 ++ [storeGet s0 r]) r = storeGet s0 r :=
    storeGet_append_lt s0 _ r hr
  simp only [generateAdCreativesRef]
  split
  next e heq => exact hs1
  next s2 heq =>
    have hs2 : storeGet s2 r = storeGet s0 r :=
      (proofreadDescStepRef_frame env _ s2 s0.length r heq hne).trans hs1
    split
    next e heq2 => exact hs2
    next pinfo heq2 =>
      split
      next e heq3 => exact hs2
      next s3 heq3 =>
        have hs3 : storeGet s3 r = storeGet s0 r :=
          (proofreadHookStepRef_frame env pinfo _ s3 s0.length r heq3
            hne).trans hs2
        split
        next e heq4 => exact hs3
        next ic heq4 =>
          split
          next e heq5 => exact hs3
          next fc heq5 =>
            split
            next hlen => exact hs3
            next hlen =>
              split
              next hv =>
                split
                next heq6 => exact hs3
                next e heq6 => exact hs3
                next urls heq6 => exact hs3
              next hv =>
                split
                next e heq6 => exact hs3
                next urls heq6 =>
                  split
                  next hz => exact hs3
                  next hz => exact hs3

/-- Witness for C10: a concrete one-object store is unchanged by a full
image-branch run. -/
theorem c10_inputs_not_mutated_witness :
    storeGet (generateAdCreativesRef baseEnv 0 [imageInputs] 0).2 0 =
      storeGet [imageInputs] 0 :=
  c10_inputs_not_mutated baseEnv 0 [imageInputs] 0 (by decide)

end MetaCreativeBuilder
